import Mathlib

/-!
# Shallow embedding of koishi-plugin-about (src/index.ts)

The plugin consists of a process runner (spawnOutput), three metadata
scrapers (scrapeProject, scrapeGitVersion, scrapeKoishiVersion), and an
aggregation step in apply that runs the configured scrapers concurrently
with Promise.all and merges the resulting singleton objects with
Object.assign.  The external world (child processes, descriptor files)
is modelled explicitly; JavaScript promise rejection is modelled with
Except.
-/

/-- A value produced by a scraper and stored in the metadata record:
either a string, or a flat key/value record (the shape of the fields of
a package.json descriptor that the plugin consumes). -/
inductive ScrapeValue where
  | str : String → ScrapeValue
  | record : List (String × String) → ScrapeValue
deriving DecidableEq

/-- Observable behaviour of one spawned child process: whether its
stdout stream could be obtained, the stdout data chunks in arrival
order, and the close code delivered to the close event (none models a
null code, e.g. a process terminated by a signal). -/
structure ProcState where
  stdoutAvailable : Bool
  chunks : List String
  closeCode : Option Int
deriving DecidableEq

/-- The external world seen by one scraper invocation: the behaviour of
the process spawned for git describe, the one spawned for git rev-list,
the contents of the working directory's package.json (none = require
throws: missing or unparsable), and the version field of the host
framework's package descriptor (none = resolution or read throws). -/
structure World where
  describeProc : ProcState
  revListProc : ProcState
  projectPkg : Option (List (String × String))
  koishiVersion : Option String
deriving DecidableEq

/-- Errors with which spawnOutput can reject: the truthy close code
passed to reject, or the stdout-unavailable Error thrown before any
data arrives. -/
inductive SpawnError where
  | processError : Int → SpawnError
  | streamUnavailable : String → SpawnError
deriving DecidableEq

/-- Errors that could escape a scraper if they were not caught: a
spawnOutput rejection or a descriptor require failure. -/
inductive ScrapeError where
  | spawn : SpawnError → ScrapeError
  | resourceRead : String → ScrapeError
deriving DecidableEq

/-- stdout accumulation: `stdout += x` for each data chunk in arrival
order, starting from the empty string. -/
def accumulate (chunks : List String) : String :=
  chunks.foldl (fun acc c => acc ++ c) ""

/-- JavaScript truthiness of the close code `x : number | null` in
`if (x) reject(x) else resolve(stdout)`: null and 0 are falsy. -/
def closeIsTruthy : Option Int → Bool
  | none => false
  | some c => c != 0

/-- Embedding of spawnOutput(command, args?, options?): spawns the
child, throws if child.stdout is unavailable (before any data event),
accumulates stdout chunks, then on close rejects with the code when it
is truthy and resolves with the accumulated stdout otherwise.  The
options argument only configures the spawn and is already reflected in
the ProcState behaviour, so it is not carried separately. -/
def spawnOutput (command : String) (args : Option (List String)) (p : ProcState) :
    Except SpawnError String :=
  let parsedArgs := args.getD []
  if p.stdoutAvailable then
    match p.closeCode with
    | some c => if c != 0 then .error (.processError c) else .ok (accumulate p.chunks)
    | none => .ok (accumulate p.chunks)
  else
    .error (.streamUnavailable
      ("cannot get stdout of " ++ command ++ " " ++ String.intercalate " " parsedArgs))

/-- JavaScript String.prototype.trim(): strip whitespace from both ends
of the string (modelled over the character list). -/
def jsTrim (s : String) : String :=
  String.mk (((s.data.dropWhile Char.isWhitespace).reverse.dropWhile
    Char.isWhitespace).reverse)

def unknownMarker : String := "（未知）"

def gitDescribeArgs : List String := ["describe", "--tags", "--dirty"]

def gitRevListArgs : List String := ["rev-list", "--count", "HEAD"]

/-- require(join(process.cwd(), 'package.json')): the project descriptor
read, which throws when the file is missing or unparsable. -/
def requireProjectDescriptor (w : World) : Except ScrapeError (List (String × String)) :=
  match w.projectPkg with
  | some fields => .ok fields
  | none => .error (.resourceRead "package.json")

/-- require(require.resolve('koishi/package.json')).version: throws when
the host descriptor cannot be resolved or read. -/
def requireKoishiDescriptor (w : World) : Except ScrapeError String :=
  match w.koishiVersion with
  | some v => .ok v
  | none => .error (.resourceRead "koishi/package.json")

/-- Embedding of scrapeGitVersion: version starts empty; the first try
block appends the trimmed output of git describe --tags --dirty and on
failure returns the localized unknown marker; the second try block
appends " (build N)" with the trimmed output of git rev-list --count
HEAD and on failure returns the unknown marker; otherwise the
accumulated version string is returned.  The second spawn happens only
after the first one succeeded. -/
def scrapeGitVersion (w : World) : Except ScrapeError ScrapeValue :=
  match spawnOutput "git" (some gitDescribeArgs) w.describeProc with
  | .error _ => .ok (.str unknownMarker)
  | .ok out1 =>
    match spawnOutput "git" (some gitRevListArgs) w.revListProc with
    | .error _ => .ok (.str unknownMarker)
    | .ok out2 =>
      .ok (.str (jsTrim out1 ++ " (build " ++ jsTrim out2 ++ ")"))

/-- Embedding of scrapeProject: returns the required project descriptor,
and on any require failure logs and returns the empty object. -/
def scrapeProject (w : World) : Except ScrapeError ScrapeValue :=
  match requireProjectDescriptor w with
  | .ok project => .ok (.record project)
  | .error _ => .ok (.record [])

/-- Embedding of scrapeKoishiVersion: returns the version field of the
resolved host descriptor, and on any failure logs and returns the
localized unknown marker. -/
def scrapeKoishiVersion (w : World) : Except ScrapeError ScrapeValue :=
  match requireKoishiDescriptor w with
  | .ok v => .ok (.str v)
  | .error _ => .ok (.str unknownMarker)

/-- The closed set of scraper names, i.e. the keys of the scrapers
object with the scrape prefix removed. -/
inductive ScraperName where
  | Project
  | GitVersion
  | KoishiVersion
deriving DecidableEq

def ScraperName.nameString : ScraperName → String
  | .Project => "Project"
  | .GitVersion => "GitVersion"
  | .KoishiVersion => "KoishiVersion"

/-- The key derivation in apply: x[0].toLowerCase() + x.slice(1). -/
def lowerFirst (s : String) : String :=
  match s.data with
  | [] => s
  | c :: cs => String.mk (c.toLower :: cs)

def scraperKey (n : ScraperName) : String := lowerFirst n.nameString

/-- The dynamic lookup scrapers['scrape' + x] in apply, resolved over
the closed name set. -/
def runScraper : ScraperName → World → Except ScrapeError ScrapeValue
  | .Project => scrapeProject
  | .GitVersion => scrapeGitVersion
  | .KoishiVersion => scrapeKoishiVersion

/-- The merged metadata object, modelled as an association list in
JavaScript property order (first-insertion order, later assignments to
an existing key overwrite in place). -/
abbrev MetadataRecord := List (String × ScrapeValue)

/-- JavaScript property lookup on the record model: first entry with
the given key. -/
def recLookup (r : MetadataRecord) (k : String) : Option ScrapeValue :=
  match r with
  | [] => none
  | p :: rest => if p.1 == k then some p.2 else recLookup rest k

/-- One JavaScript property assignment target[k] = v as performed by
Object.assign: overwrite in place when the key exists, append
otherwise. -/
def recAssign (r : MetadataRecord) (k : String) (v : ScrapeValue) : MetadataRecord :=
  if r.any (fun p => p.1 == k) then
    r.map (fun p => if p.1 == k then (k, v) else p)
  else
    r ++ [(k, v)]

/-- Object.assign({}, ...entries) where each source object is a
singleton {key: value}: assign each entry left to right into an
initially empty object. -/
def objectAssign (entries : List (String × ScrapeValue)) : MetadataRecord :=
  entries.foldl (fun r kv => recAssign r kv.1 kv.2) []

/-- The array of promises built by config.scrapers.map in apply, run to
their settled results: invocation i (the i-th position of the
configured list, world w i) yields the pair of its derived key and the
scraper's result.  Any rejection would propagate through Promise.all. -/
def scrapeEntriesFrom (cfg : List ScraperName) (w : Nat → World) (i : Nat) :
    Except ScrapeError (List (String × ScrapeValue)) :=
  match cfg with
  | [] => .ok []
  | x :: rest => do
    let v ← runScraper x (w i)
    let others ← scrapeEntriesFrom rest w (i + 1)
    pure ((scraperKey x, v) :: others)

/-- The aggregation in apply: Object.assign({}, ...(await
Promise.all(config.scrapers.map(...)))). -/
def aggregate (cfg : List ScraperName) (w : Nat → World) :
    Except ScrapeError MetadataRecord :=
  (scrapeEntriesFrom cfg w 0).map objectAssign

/-- The value a scraper invocation settles with (scrapers never reject,
as proved below, so the error branch is unreachable). -/
def scraperValue (n : ScraperName) (w : World) : ScrapeValue :=
  match runScraper n w with
  | .ok v => v
  | .error _ => .record []

/-- The settled key/value pairs of the mapped promises, indexed from
invocation i. -/
def scrapeTasksFrom (cfg : List ScraperName) (w : Nat → World) (i : Nat) :
    List (String × ScrapeValue) :=
  match cfg with
  | [] => []
  | x :: rest => (scraperKey x, scraperValue x (w i)) :: scrapeTasksFrom rest w (i + 1)

def scrapeTasks (cfg : List ScraperName) (w : Nat → World) :
    List (String × ScrapeValue) :=
  scrapeTasksFrom cfg w 0

/-- Event-loop model of Promise.all's collection phase: the pending
result array has one slot per task; as each task index settles (in
completion order ord) its value is stored at its own input position. -/
def settleSlots {α : Type} (tasks : List α) (slots : List (Option α)) (ord : List Nat) :
    List (Option α) :=
  match ord with
  | [] => slots
  | i :: rest =>
    match tasks[i]? with
    | some v => settleSlots tasks (slots.set i (some v)) rest
    | none => settleSlots tasks slots rest

/-- Promise.all's result array after all tasks settled in completion
order ord, starting from all-pending slots. -/
def promiseAllSlots {α : Type} (tasks : List α) (ord : List Nat) : List (Option α) :=
  settleSlots tasks (List.replicate tasks.length none) ord

/-- Number of processes a scraper invocation spawns: git describe is
spawned first and git rev-list only after it succeeded; the other
scrapers spawn nothing. -/
def scraperSpawnCount (n : ScraperName) (w : World) : Nat :=
  match n with
  | .Project => 0
  | .KoishiVersion => 0
  | .GitVersion =>
    match spawnOutput "git" (some gitDescribeArgs) w.describeProc with
    | .error _ => 1
    | .ok _ => 2

/-- Total number of processes spawned by an aggregation pass, indexed
from invocation i. -/
def spawnCountFrom (cfg : List ScraperName) (w : Nat → World) (i : Nat) : Nat :=
  match cfg with
  | [] => 0
  | x :: rest => scraperSpawnCount x (w i) + spawnCountFrom rest w (i + 1)

def templateId : String := "commands.about.template"

/-- Embedding of the registered command handler
({session}) => session.text('commands.about.template', result): it
renders the host's template for the MetadataRecord captured at startup.
The handler is also given the external world at invocation time, which
its body never consults (no re-scrape, no mutation). -/
def aboutHandler (captured : MetadataRecord)
    (sessionText : String → MetadataRecord → String) (_wNow : World) : String :=
  sessionText templateId captured

/-- The last value assigned to key k across the entry list, by input
position. -/
def lastValue (entries : List (String × ScrapeValue)) (k : String) : Option ScrapeValue :=
  match entries with
  | [] => none
  | kv :: rest =>
    match lastValue rest k with
    | some v => some v
    | none => if kv.1 == k then some kv.2 else none

def keys (r : MetadataRecord) : List String := r.map Prod.fst

/-- A configuration with a duplicated scraper name. -/
def cfgDup : List ScraperName := [ScraperName.GitVersion, ScraperName.GitVersion]

/-- Worlds in which the two duplicate invocations observe different git
outputs: invocation 0 computes "v1 (build 1)", invocation 1 computes
"v2 (build 2)". -/
def wDup : Nat → World := fun i =>
  if i = 0 then ⟨⟨true, ["v1"], some 0⟩, ⟨true, ["1"], some 0⟩, none, none⟩
  else ⟨⟨true, ["v2"], some 0⟩, ⟨true, ["2"], some 0⟩, none, none⟩

/-! ## Basic facts about the scrapers and the aggregation -/

/-- Every anticipated failure inside a scraper is caught locally, so a
scraper invocation always settles with a value. -/
theorem runScraper_isOk (n : ScraperName) (w : World) :
    ∃ v, runScraper n w = Except.ok v := by
  cases n
  · simp only [runScraper, scrapeProject]
    split <;> exact ⟨_, rfl⟩
  · simp only [runScraper, scrapeGitVersion]
    split
    · exact ⟨_, rfl⟩
    · split <;> exact ⟨_, rfl⟩
  · simp only [runScraper, scrapeKoishiVersion]
    split <;> exact ⟨_, rfl⟩

theorem runScraper_ok (n : ScraperName) (w : World) :
    runScraper n w = Except.ok (scraperValue n w) := by
  obtain ⟨v, hv⟩ := runScraper_isOk n w
  simp [scraperValue, hv]

theorem scrapeEntriesFrom_ok (cfg : List ScraperName) (w : Nat → World) :
    ∀ i, scrapeEntriesFrom cfg w i = Except.ok (scrapeTasksFrom cfg w i) := by
  induction cfg with
  | nil => intro i; rfl
  | cons x rest ih =>
    intro i
    simp only [scrapeEntriesFrom, scrapeTasksFrom, runScraper_ok, ih]
    rfl

theorem aggregate_ok (cfg : List ScraperName) (w : Nat → World) :
    aggregate cfg w = Except.ok (objectAssign (scrapeTasks cfg w)) := by
  simp [aggregate, scrapeEntriesFrom_ok, scrapeTasks, Except.map]

theorem length_scrapeTasksFrom (cfg : List ScraperName) (w : Nat → World) :
    ∀ i, (scrapeTasksFrom cfg w i).length = cfg.length := by
  induction cfg with
  | nil => intro i; rfl
  | cons x rest ih => intro i; simp [scrapeTasksFrom, ih]

/-! ## Record lemmas: Object.assign as last-write-wins per key -/

theorem recLookup_append (r s : MetadataRecord) (q : String) :
    recLookup (r ++ s) q =
      match recLookup r q with
      | some v => some v
      | none => recLookup s q := by
  induction r with
  | nil => simp [recLookup]
  | cons p rest ih =>
    by_cases h : p.1 = q <;> simp [recLookup, h, ih]

theorem recLookup_eq_none_of_not_any (r : MetadataRecord) (k : String)
    (h : r.any (fun p => p.1 == k) = false) : recLookup r k = none := by
  induction r with
  | nil => rfl
  | cons p rest ih =>
    simp only [List.any_cons, Bool.or_eq_false_iff] at h
    simp [recLookup, h.1, ih h.2]

theorem recLookup_mapReplace (k q : String) (v : ScrapeValue) (r : MetadataRecord) :
    recLookup (r.map (fun p => if p.1 == k then (k, v) else p)) q =
      if q = k then (if r.any (fun p => p.1 == k) then some v else none)
      else recLookup r q := by
  induction r with
  | nil => by_cases h : q = k <;> simp [recLookup, h]
  | cons p rest ih =>
    simp only [List.map_cons, List.any_cons]
    simp only [beq_iff_eq] at ih
    by_cases hpk : p.1 = k
    · by_cases hqk : q = k
      · subst hqk; simp [recLookup, hpk]
      · simp [recLookup, hpk, hqk, ih, Ne.symm hqk]
    · by_cases hqp : q = p.1
      · subst hqp; simp [recLookup, hpk]
      · by_cases hqk : q = k
        · subst hqk
          have hb : (p.1 == q) = false := by simp [hpk]
          simp [recLookup, Ne.symm hqp, ih, hpk, hb]
          rw [hb, Bool.false_or]
        · simp [recLookup, Ne.symm hqp, ih, hqk, hpk]

theorem recLookup_recAssign (r : MetadataRecord) (k q : String) (v : ScrapeValue) :
    recLookup (recAssign r k v) q = if q = k then some v else recLookup r q := by
  unfold recAssign
  by_cases ha : r.any (fun p => p.1 == k) = true
  · rw [if_pos ha, recLookup_mapReplace]
    by_cases hqk : q = k <;> simp [hqk, ha]
  · rw [if_neg ha, recLookup_append]
    rw [Bool.not_eq_true] at ha
    by_cases hqk : q = k
    · subst hqk
      rw [recLookup_eq_none_of_not_any r q ha]
      simp [recLookup]
    · cases hr : recLookup r q <;> simp [recLookup, hqk, Ne.symm hqk, hr]

theorem recLookup_foldAssign (entries : List (String × ScrapeValue)) (q : String) :
    ∀ r : MetadataRecord,
      recLookup (entries.foldl (fun r kv => recAssign r kv.1 kv.2) r) q =
        match lastValue entries q with
        | some v => some v
        | none => recLookup r q := by
  induction entries with
  | nil => intro r; simp [lastValue]
  | cons kv rest ih =>
    intro r
    simp only [List.foldl_cons, ih, lastValue]
    cases h : lastValue rest q
    · rw [recLookup_recAssign]
      by_cases hqk : q = kv.1
      · simp [hqk]
      · simp [hqk, Ne.symm hqk]
    · rfl

theorem recLookup_objectAssign (entries : List (String × ScrapeValue)) (q : String) :
    recLookup (objectAssign entries) q = lastValue entries q := by
  rw [objectAssign, recLookup_foldAssign]
  cases h : lastValue entries q <;> simp [recLookup]

/-! ## Key-set lemmas -/

theorem any_key_iff_mem_keys (r : MetadataRecord) (k : String) :
    r.any (fun p => p.1 == k) = true ↔ k ∈ keys r := by
  simp only [List.any_eq_true, keys, List.mem_map, beq_iff_eq]

theorem keys_recAssign (r : MetadataRecord) (k : String) (v : ScrapeValue) :
    keys (recAssign r k v) =
      if r.any (fun p => p.1 == k) then keys r else keys r ++ [k] := by
  unfold recAssign
  by_cases h : r.any (fun p => p.1 == k) = true
  · rw [if_pos h, if_pos h]
    simp only [keys, List.map_map]
    apply List.map_congr_left
    intro p _
    by_cases hp : p.1 = k <;> simp [hp]
  · rw [if_neg h, if_neg h]
    simp [keys]

theorem mem_keys_recAssign (r : MetadataRecord) (k q : String) (v : ScrapeValue) :
    q ∈ keys (recAssign r k v) ↔ q ∈ keys r ∨ q = k := by
  rw [keys_recAssign]
  by_cases h : r.any (fun p => p.1 == k) = true
  · rw [if_pos h]
    constructor
    · exact Or.inl
    · rintro (hq | hq)
      · exact hq
      · subst hq; exact (any_key_iff_mem_keys r q).mp h
  · rw [if_neg h]; simp

theorem nodup_keys_recAssign (r : MetadataRecord) (k : String) (v : ScrapeValue)
    (h : (keys r).Nodup) : (keys (recAssign r k v)).Nodup := by
  rw [keys_recAssign]
  by_cases ha : r.any (fun p => p.1 == k) = true
  · rw [if_pos ha]; exact h
  · rw [if_neg ha]
    have hk : k ∉ keys r := fun hmem => ha ((any_key_iff_mem_keys r k).mpr hmem)
    rw [List.nodup_append]
    refine ⟨h, List.nodup_singleton k, ?_⟩
    intro b hbmem hbsing
    rw [List.mem_singleton] at hbsing
    subst hbsing
    exact hk hbmem

theorem mem_keys_foldAssign (entries : List (String × ScrapeValue)) (q : String) :
    ∀ r : MetadataRecord,
      q ∈ keys (entries.foldl (fun r kv => recAssign r kv.1 kv.2) r) ↔
        q ∈ keys r ∨ q ∈ keys entries := by
  induction entries with
  | nil => intro r; simp [keys]
  | cons kv rest ih =>
    intro r
    rw [List.foldl_cons, ih, mem_keys_recAssign]
    simp only [keys, List.map_cons, List.mem_cons]
    tauto

theorem nodup_keys_foldAssign (entries : List (String × ScrapeValue)) :
    ∀ r : MetadataRecord, (keys r).Nodup →
      (keys (entries.foldl (fun r kv => recAssign r kv.1 kv.2) r)).Nodup := by
  induction entries with
  | nil => intro r h; exact h
  | cons kv rest ih =>
    intro r h
    exact ih _ (nodup_keys_recAssign r kv.1 kv.2 h)

theorem nodup_keys_objectAssign (entries : List (String × ScrapeValue)) :
    (keys (objectAssign entries)).Nodup :=
  nodup_keys_foldAssign entries [] (by simp [keys])

theorem mem_keys_objectAssign (entries : List (String × ScrapeValue)) (q : String) :
    q ∈ keys (objectAssign entries) ↔ q ∈ keys entries := by
  rw [objectAssign, mem_keys_foldAssign]
  simp [keys]

theorem mem_keys_scrapeTasksFrom (cfg : List ScraperName) (w : Nat → World) (q : String) :
    ∀ i, q ∈ keys (scrapeTasksFrom cfg w i) ↔ ∃ n, n ∈ cfg ∧ scraperKey n = q := by
  induction cfg with
  | nil => intro i; simp [scrapeTasksFrom, keys]
  | cons x rest ih =>
    intro i
    simp only [keys] at ih
    simp only [scrapeTasksFrom, keys, List.map_cons, List.mem_cons]
    rw [ih (i + 1)]
    constructor
    · rintro (h | ⟨n, hn, hk⟩)
      · exact ⟨x, Or.inl rfl, h.symm⟩
      · exact ⟨n, Or.inr hn, hk⟩
    · rintro ⟨n, hn | hn, hk⟩
      · subst hn; exact Or.inl hk.symm
      · exact Or.inr ⟨n, hn, hk⟩

/-! ## Promise.all slot model: completion order does not change the result array -/

theorem settleSlots_getElem? {α : Type} (tasks : List α) (ord : List Nat) :
    ∀ (slots : List (Option α)), slots.length = tasks.length → ∀ j,
      (settleSlots tasks slots ord)[j]? =
        if j ∈ ord ∧ j < tasks.length then (tasks[j]?).map some else slots[j]? := by
  induction ord with
  | nil =>
    intro slots _ j
    simp [settleSlots]
  | cons i rest ih =>
    intro slots hlen j
    rw [settleSlots]
    cases hti : tasks[i]? with
    | none =>
      have hi : tasks.length ≤ i := by
        rw [← List.getElem?_eq_none_iff]; exact hti
      rw [ih slots hlen j]
      by_cases hj : j ∈ i :: rest ∧ j < tasks.length
      · have hjr : j ∈ rest := by
          rcases List.mem_cons.mp hj.1 with hji | hjr
          · exact absurd hj.2 (by rw [hji]; exact Nat.not_lt.mpr hi)
          · exact hjr
        rw [if_pos ⟨hjr, hj.2⟩, if_pos hj]
      · have : ¬(j ∈ rest ∧ j < tasks.length) := by
          intro hc; exact hj ⟨List.mem_cons_of_mem i hc.1, hc.2⟩
        rw [if_neg this, if_neg hj]
    | some v =>
      have hi : i < tasks.length := by
        by_contra hge
        rw [List.getElem?_eq_none (Nat.le_of_not_lt hge)] at hti
        exact Option.noConfusion hti
      have hlen' : (slots.set i (some v)).length = tasks.length := by
        rw [List.length_set]; exact hlen
      rw [ih _ hlen' j]
      by_cases hjr : j ∈ rest ∧ j < tasks.length
      · rw [if_pos hjr, if_pos ⟨List.mem_cons_of_mem i hjr.1, hjr.2⟩]
      · rw [if_neg hjr]
        by_cases hji : j = i
        · subst hji
          rw [if_pos ⟨List.mem_cons_self j rest, hi⟩]
          rw [List.getElem?_set_self (by rw [hlen]; exact hi)]
          rw [hti]
          rfl
        · rw [List.getElem?_set_ne (fun h => hji h.symm)]
          have : ¬(j ∈ i :: rest ∧ j < tasks.length) := by
            intro hc
            rcases List.mem_cons.mp hc.1 with h | h
            · exact hji h
            · exact hjr ⟨h, hc.2⟩
          rw [if_neg this]

theorem promiseAllSlots_eq_map_some {α : Type} (tasks : List α) (ord : List Nat)
    (hcov : ∀ j, j < tasks.length → j ∈ ord) :
    promiseAllSlots tasks ord = tasks.map some := by
  apply List.ext_getElem?
  intro j
  rw [promiseAllSlots, settleSlots_getElem? tasks ord _ (by simp) j]
  by_cases hj : j < tasks.length
  · rw [if_pos ⟨hcov j hj, hj⟩, List.getElem?_map]
  · rw [if_neg (fun hc => hj hc.2)]
    rw [List.getElem?_replicate]
    rw [if_neg hj]
    rw [List.getElem?_eq_none]
    · simp [Nat.le_of_not_lt hj]

/-! ## Claim theorems -/

/-- C3: spawnOutput resolves with the full accumulated stdout text
exactly when the process closes with a success (falsy) close code; it
rejects carrying the non-zero exit code when the process closes
unsuccessfully; and it fails with the stream-unavailable error when the
child's stdout stream cannot be obtained before any data arrives. -/
theorem C3_spawnOutput_contract (cmd : String) (args : Option (List String)) (p : ProcState) :
    (p.stdoutAvailable = true →
      ((∀ s, spawnOutput cmd args p = Except.ok s ↔
          (closeIsTruthy p.closeCode = false ∧ s = accumulate p.chunks)) ∧
       (∀ c : Int, p.closeCode = some c → c ≠ 0 →
          spawnOutput cmd args p = Except.error (SpawnError.processError c)))) ∧
    (p.stdoutAvailable = false →
      spawnOutput cmd args p = Except.error (SpawnError.streamUnavailable
        ("cannot get stdout of " ++ cmd ++ " " ++
          String.intercalate " " (args.getD [])))) := by
  constructor
  · intro hav
    constructor
    · intro s
      unfold spawnOutput
      rw [hav]
      simp only [if_true]
      cases hc : p.closeCode with
      | none => simp [closeIsTruthy, eq_comm]
      | some c =>
        by_cases hz : c = 0
        · subst hz; simp [closeIsTruthy, eq_comm]
        · simp [closeIsTruthy, hz]
    · intro c hc hz
      unfold spawnOutput
      rw [hav, hc]
      simp [hz]
  · intro hav
    unfold spawnOutput
    rw [hav]
    simp

/-- C10: given the stdout stream was obtained, spawnOutput rejects
exactly when the close code is truthy (a non-zero exit code); for a
falsy close code, 0 or null (the latter including termination by a
signal), it resolves with the stdout accumulated up to that point. -/
theorem C10_close_code_truthiness (cmd : String) (args : Option (List String))
    (p : ProcState) (hav : p.stdoutAvailable = true) :
    ((∃ e, spawnOutput cmd args p = Except.error e) ↔ closeIsTruthy p.closeCode = true) ∧
    (closeIsTruthy p.closeCode = false →
      spawnOutput cmd args p = Except.ok (accumulate p.chunks)) ∧
    (p.closeCode = none →
      spawnOutput cmd args p = Except.ok (accumulate p.chunks)) := by
  refine ⟨?_, ?_, ?_⟩
  · unfold spawnOutput
    rw [hav]
    simp only [if_true]
    cases hc : p.closeCode with
    | none => simp [closeIsTruthy]
    | some c =>
      by_cases hz : c = 0
      · subst hz; simp [closeIsTruthy]
      · simp [closeIsTruthy, hz]
  · intro hf
    unfold spawnOutput
    rw [hav]
    simp only [if_true]
    cases hc : p.closeCode with
    | none => rfl
    | some c =>
      rw [hc] at hf
      simp only [closeIsTruthy] at hf
      simp [hf]
  · intro hn
    unfold spawnOutput
    rw [hav, hn]
    simp

/-- C2: whenever either of the two sequential git invocations fails,
scrapeGitVersion returns the localized unknown marker for the entire
value, never a partial string; in particular a failure of the second
call discards the tag description already produced by the first. -/
theorem C2_git_failure_unknown (w : World)
    (h : (∃ e, spawnOutput "git" (some gitDescribeArgs) w.describeProc = Except.error e) ∨
         (∃ e, spawnOutput "git" (some gitRevListArgs) w.revListProc = Except.error e)) :
    scrapeGitVersion w = Except.ok (ScrapeValue.str unknownMarker) := by
  unfold scrapeGitVersion
  cases h1 : spawnOutput "git" (some gitDescribeArgs) w.describeProc with
  | error e => rfl
  | ok o1 =>
    cases h2 : spawnOutput "git" (some gitRevListArgs) w.revListProc with
    | error e => rfl
    | ok o2 =>
      exfalso
      rcases h with ⟨e, he⟩ | ⟨e, he⟩
      · rw [h1] at he; exact Except.noConfusion he
      · rw [h2] at he; exact Except.noConfusion he

/-- C4: when both git invocations succeed, scrapeGitVersion returns the
trimmed describe output, a space, and "(build N)" with N the trimmed
rev-list output. -/
theorem C4_git_success_format (w : World) (o1 o2 : String)
    (h1 : spawnOutput "git" (some gitDescribeArgs) w.describeProc = Except.ok o1)
    (h2 : spawnOutput "git" (some gitRevListArgs) w.revListProc = Except.ok o2) :
    scrapeGitVersion w =
      Except.ok (ScrapeValue.str (jsTrim o1 ++ " (build " ++ jsTrim o2 ++ ")")) := by
  unfold scrapeGitVersion
  rw [h1, h2]

/-- C5: a descriptor-file read failure is recovered locally inside the
owning scraper: scrapeProject returns the empty structure (which is not
any string, in particular not the unknown marker) when the working
directory's package.json cannot be read or parsed, and
scrapeKoishiVersion returns the localized unknown marker when the host
framework's package descriptor cannot be resolved or read. -/
theorem C5_descriptor_failure_local (w wk : World)
    (hp : w.projectPkg = none) (hk : wk.koishiVersion = none) :
    scrapeProject w = Except.ok (ScrapeValue.record []) ∧
    (∀ s, ScrapeValue.record [] ≠ ScrapeValue.str s) ∧
    scrapeKoishiVersion wk = Except.ok (ScrapeValue.str unknownMarker) := by
  refine ⟨?_, ?_, ?_⟩
  · unfold scrapeProject requireProjectDescriptor
    rw [hp]
  · intro s h; exact ScrapeValue.noConfusion h
  · unfold scrapeKoishiVersion requireKoishiDescriptor
    rw [hk]

/-- C6: with an empty configured scraper list, the aggregation produces
the empty MetadataRecord and spawns no external process. -/
theorem C6_empty_config (w : Nat → World) :
    aggregate [] w = Except.ok ([] : MetadataRecord) ∧ spawnCountFrom [] w 0 = 0 :=
  ⟨rfl, rfl⟩

/-- C8: after a successful startup aggregation, any two invocations of
the about command handler render the same text: the handler reads only
the MetadataRecord captured at startup and is unaffected by the state
of the external world at invocation time (no re-scrape, no mutation). -/
theorem C8_handler_snapshot (cfg : List ScraperName) (w : Nat → World)
    (r : MetadataRecord) (h : aggregate cfg w = Except.ok r)
    (sessionText : String → MetadataRecord → String) (w1 w2 : World) :
    aboutHandler r sessionText w1 = aboutHandler r sessionText w2 := rfl

/-- C9: every registered scraper catches all its anticipated failure
paths and settles with a value, so the aggregation pass never fails as
a whole for any configuration. -/
theorem C9_scrapers_total :
    (∀ (n : ScraperName) (w : World), ∃ v, runScraper n w = Except.ok v) ∧
    (∀ (cfg : List ScraperName) (w : Nat → World), ∃ r, aggregate cfg w = Except.ok r) :=
  ⟨runScraper_isOk, fun cfg w => ⟨_, aggregate_ok cfg w⟩⟩

/-- C1: for every configuration drawn from the closed scraper-name set,
the aggregated MetadataRecord has pairwise-distinct keys, its key set
is exactly the image of the configured names under first-character
lower-casing, and those keys are project, gitVersion and
koishiVersion. -/
theorem C1_metadata_key_set (cfg : List ScraperName) (w : Nat → World)
    (r : MetadataRecord) (h : aggregate cfg w = Except.ok r) :
    (keys r).Nodup ∧
    (∀ q, q ∈ keys r ↔ ∃ n, n ∈ cfg ∧ scraperKey n = q) ∧
    scraperKey ScraperName.Project = "project" ∧
    scraperKey ScraperName.GitVersion = "gitVersion" ∧
    scraperKey ScraperName.KoishiVersion = "koishiVersion" := by
  rw [aggregate_ok] at h
  injection h with h'
  subst h'
  refine ⟨nodup_keys_objectAssign _, ?_, rfl, rfl, rfl⟩
  intro q
  rw [mem_keys_objectAssign]
  exact mem_keys_scrapeTasksFrom cfg w q 0

/-- C7 counterexample: with the duplicate configuration cfgDup and
worlds wDup, under completion order [1, 0] (invocation 1 settles first,
invocation 0 settles last, so the later-computed value is invocation
0's "v1 (build 1)"), Promise.all still yields the positional result
array, and the aggregated record maps gitVersion to invocation 1's
"v2 (build 2)" — the value at the last input position, not the
later-completed one.  This refutes the claim that the winning value is
determined by completion order. -/
theorem C7_completion_order_counterexample :
    aggregate cfgDup wDup = Except.ok [("gitVersion", ScrapeValue.str "v2 (build 2)")] ∧
    promiseAllSlots (scrapeTasks cfgDup wDup) [1, 0] = (scrapeTasks cfgDup wDup).map some ∧
    scraperValue ScraperName.GitVersion (wDup 0) = ScrapeValue.str "v1 (build 1)" ∧
    ScrapeValue.str "v2 (build 2)" ≠ ScrapeValue.str "v1 (build 1)" :=
  ⟨rfl, by decide, rfl, by decide⟩

/-- C7 (amended): duplicate names overwrite the same key, and the
winning value is the one computed by the duplicate at the last position
of the input sequence; the completion order (any permutation of the
invocation indices) does not influence the result, because Promise.all
stores every result at its input position. -/
theorem C7_amended_last_input_position (cfg : List ScraperName) (w : Nat → World)
    (ord : List Nat) (hord : ord.Perm (List.range cfg.length))
    (r : MetadataRecord) (h : aggregate cfg w = Except.ok r) :
    promiseAllSlots (scrapeTasks cfg w) ord = (scrapeTasks cfg w).map some ∧
    ∀ q, recLookup r q = lastValue (scrapeTasks cfg w) q := by
  constructor
  · apply promiseAllSlots_eq_map_some
    intro j hj
    rw [scrapeTasks, length_scrapeTasksFrom] at hj
    exact (hord.mem_iff).mpr (List.mem_range.mpr hj)
  · intro q
    rw [aggregate_ok] at h
    injection h with h'
    subst h'
    rw [recLookup_objectAssign]

/-! ## Witnesses -/

/-- Witness for C3 at concrete processes: a successful close with
accumulated output, a non-zero exit code, and a missing stdout
stream. -/
theorem C3_spawnOutput_contract_witness :
    spawnOutput "git" (some ["a", "b"]) ⟨true, ["x", "y"], some 0⟩ = Except.ok "xy" ∧
    spawnOutput "git" none ⟨true, [], some 2⟩ = Except.error (SpawnError.processError 2) ∧
    spawnOutput "git" none ⟨false, [], none⟩ =
      Except.error (SpawnError.streamUnavailable "cannot get stdout of git ") :=
  ⟨(((C3_spawnOutput_contract "git" (some ["a", "b"]) ⟨true, ["x", "y"], some 0⟩).1 rfl).1
      "xy").mpr ⟨rfl, rfl⟩,
   ((C3_spawnOutput_contract "git" none ⟨true, [], some 2⟩).1 rfl).2 2 rfl (by decide),
   (C3_spawnOutput_contract "git" none ⟨false, [], none⟩).2 rfl⟩

/-- Witness for C10 at a process closed by a signal (null close code):
it resolves with the accumulated stdout. -/
theorem C10_close_code_truthiness_witness :
    spawnOutput "git" none ⟨true, ["out"], none⟩ = Except.ok "out" :=
  (C10_close_code_truthiness "git" none ⟨true, ["out"], none⟩ rfl).2.2 rfl

/-- Witness for C2: first git call succeeds, second exits with code
128; the whole value degrades to the unknown marker. -/
theorem C2_git_failure_unknown_witness :
    scrapeGitVersion ⟨⟨true, ["v1"], some 0⟩, ⟨true, [], some 128⟩, none, none⟩ =
      Except.ok (ScrapeValue.str unknownMarker) :=
  C2_git_failure_unknown ⟨⟨true, ["v1"], some 0⟩, ⟨true, [], some 128⟩, none, none⟩
    (Or.inr ⟨SpawnError.processError 128, rfl⟩)

/-- Witness for C4: both git calls succeed and the value is the trimmed
concatenation. -/
theorem C4_git_success_format_witness :
    scrapeGitVersion ⟨⟨true, [" v1.2.0 "], some 0⟩, ⟨true, ["5"], some 0⟩, none, none⟩ =
      Except.ok (ScrapeValue.str "v1.2.0 (build 5)") :=
  C4_git_success_format ⟨⟨true, [" v1.2.0 "], some 0⟩, ⟨true, ["5"], some 0⟩, none, none⟩
    " v1.2.0 " "5" rfl rfl

/-- Witness for C5 at worlds whose descriptor reads fail. -/
theorem C5_descriptor_failure_local_witness :
    scrapeProject ⟨⟨true, [], none⟩, ⟨true, [], none⟩, none, none⟩ =
      Except.ok (ScrapeValue.record []) ∧
    scrapeKoishiVersion ⟨⟨true, [], none⟩, ⟨true, [], none⟩, none, none⟩ =
      Except.ok (ScrapeValue.str unknownMarker) :=
  ⟨(C5_descriptor_failure_local ⟨⟨true, [], none⟩, ⟨true, [], none⟩, none, none⟩
      ⟨⟨true, [], none⟩, ⟨true, [], none⟩, none, none⟩ rfl rfl).1,
   (C5_descriptor_failure_local ⟨⟨true, [], none⟩, ⟨true, [], none⟩, none, none⟩
      ⟨⟨true, [], none⟩, ⟨true, [], none⟩, none, none⟩ rfl rfl).2.2⟩

/-- Witness for C8: the handler output is unchanged across two
different invocation-time worlds. -/
theorem C8_handler_snapshot_witness :
    aboutHandler [] (fun t _ => t) ⟨⟨true, [], none⟩, ⟨true, [], none⟩, none, none⟩ =
      aboutHandler [] (fun t _ => t) ⟨⟨false, [], some 1⟩, ⟨true, [], none⟩, none, none⟩ :=
  C8_handler_snapshot [] (fun _ => ⟨⟨true, [], none⟩, ⟨true, [], none⟩, none, none⟩) []
    rfl (fun t _ => t)
    ⟨⟨true, [], none⟩, ⟨true, [], none⟩, none, none⟩
    ⟨⟨false, [], some 1⟩, ⟨true, [], none⟩, none, none⟩

/-- Witness for C1 at the full default configuration and a concrete
world. -/
theorem C1_metadata_key_set_witness :
    (keys (objectAssign (scrapeTasks
      [ScraperName.Project, ScraperName.GitVersion, ScraperName.KoishiVersion]
      (fun _ => ⟨⟨true, ["v1.0.0"], some 0⟩, ⟨true, ["42"], some 0⟩,
        some [("name", "about")], some "4.0.0"⟩)))).Nodup :=
  (C1_metadata_key_set
    [ScraperName.Project, ScraperName.GitVersion, ScraperName.KoishiVersion]
    (fun _ => ⟨⟨true, ["v1.0.0"], some 0⟩, ⟨true, ["42"], some 0⟩,
      some [("name", "about")], some "4.0.0"⟩)
    (objectAssign (scrapeTasks
      [ScraperName.Project, ScraperName.GitVersion, ScraperName.KoishiVersion]
      (fun _ => ⟨⟨true, ["v1.0.0"], some 0⟩, ⟨true, ["42"], some 0⟩,
        some [("name", "about")], some "4.0.0"⟩))) rfl).1

/-- Witness for the amended C7 at the duplicate configuration under
completion order [1, 0]. -/
theorem C7_amended_last_input_position_witness :
    recLookup [("gitVersion", ScrapeValue.str "v2 (build 2)")] "gitVersion" =
      lastValue (scrapeTasks cfgDup wDup) "gitVersion" :=
  (C7_amended_last_input_position cfgDup wDup [1, 0] (by decide)
    [("gitVersion", ScrapeValue.str "v2 (build 2)")] rfl).2 "gitVersion"
